import Mathlib

/-!
Shallow embedding of the cryptocurrency LSTM-forecasting notebook
(`notebooks` pipeline; the modeling notebook holds `load_crypto_data`,
`create_time_series_features`, `create_sequences`, `train_and_evaluate_model`
and `main`).  Numeric values are modelled as exact rationals (`ℚ`); a pandas
`NaN` cell is modelled as `none : Option ℚ`; a raised Python exception is
modelled as `Except.error`.  Library calls (`sklearn`'s `MinMaxScaler`,
`train_test_split`, the three metric functions) are embedded following the
semantics of those libraries, since the notebook delegates to them.
-/

namespace Crypto

/-! ## Sequence preparation (`create_sequences`)

Python:
```
X, y = [], []
for i in range(len(data) - seq_length):
    X.append(data[i:i+seq_length])
    y.append(data[i+seq_length])
return np.array(X), np.array(y)
```
`range` of a non-positive number is empty, which matches `ℕ` truncated
subtraction in `List.range (data.length - seq_length)`. -/

def create_sequences (data : List ℚ) (seq_length : ℕ := 30) :
    List (List ℚ) × List ℚ :=
  ((List.range (data.length - seq_length)).map
      (fun i => (data.drop i).take seq_length),
   (List.range (data.length - seq_length)).map
      (fun i => data.getD (i + seq_length) 0))

end Crypto

namespace Crypto

lemma create_sequences_fst_length (data : List ℚ) (L : ℕ) :
    (create_sequences data L).1.length = data.length - L := by
  simp [create_sequences]

lemma create_sequences_snd_length (data : List ℚ) (L : ℕ) :
    (create_sequences data L).2.length = data.length - L := by
  simp [create_sequences]

lemma create_sequences_fst_getD (data : List ℚ) (L i : ℕ)
    (hi : i < data.length - L) :
    (create_sequences data L).1.getD i [] = (data.drop i).take L := by
  have h : i < (create_sequences data L).1.length := by
    rw [create_sequences_fst_length]; exact hi
  rw [List.getD_eq_getElem _ _ h]
  simp [create_sequences]

lemma create_sequences_snd_getD (data : List ℚ) (L i : ℕ)
    (hi : i < data.length - L) :
    (create_sequences data L).2.getD i 0 = data.getD (i + L) 0 := by
  have h : i < (create_sequences data L).2.length := by
    rw [create_sequences_snd_length]; exact hi
  rw [List.getD_eq_getElem _ _ h]
  simp [create_sequences]

lemma slice_length (data : List ℚ) (L i : ℕ) (hi : i < data.length - L) :
    ((data.drop i).take L).length = L := by
  simp only [List.length_take, List.length_drop]
  omega

end Crypto

/-- C1: for every series of length N and window length L, `create_sequences`
produces exactly N−L (input, target) pairs when N > L, with input i equal to
`series[i : i+L]` (of length L) and target i equal to `series[i+L]`; and it
produces zero pairs (empty result, not an error) when N ≤ L. -/
theorem claim_C1_create_sequences_spec (data : List ℚ) (L : ℕ) :
    (L < data.length →
      (Crypto.create_sequences data L).1.length = data.length - L ∧
      (Crypto.create_sequences data L).2.length = data.length - L ∧
      ∀ i, i < data.length - L →
        (Crypto.create_sequences data L).1.getD i [] = (data.drop i).take L ∧
        ((Crypto.create_sequences data L).1.getD i []).length = L ∧
        (Crypto.create_sequences data L).2.getD i 0 = data.getD (i + L) 0) ∧
    (data.length ≤ L → Crypto.create_sequences data L = ([], [])) := by
  constructor
  · intro _
    refine ⟨Crypto.create_sequences_fst_length data L,
            Crypto.create_sequences_snd_length data L, ?_⟩
    intro i hi
    refine ⟨Crypto.create_sequences_fst_getD data L i hi, ?_,
            Crypto.create_sequences_snd_getD data L i hi⟩
    rw [Crypto.create_sequences_fst_getD data L i hi]
    exact Crypto.slice_length data L i hi
  · intro hle
    have h : data.length - L = 0 := Nat.sub_eq_zero_of_le hle
    simp [Crypto.create_sequences, h]

/-- Witness for C1 at concrete inputs: a length-5 series with window 2
(N > L, checked at pair index 1), and a length-2 series with window 9
(N ≤ L). -/
theorem claim_C1_witness :
    (Crypto.create_sequences [(1 : ℚ), 2, 3, 4, 5] 2).1.length = 3 ∧
    (Crypto.create_sequences [(1 : ℚ), 2, 3, 4, 5] 2).2.length = 3 ∧
    (Crypto.create_sequences [(1 : ℚ), 2, 3, 4, 5] 2).1.getD 1 [] =
      (([(1 : ℚ), 2, 3, 4, 5].drop 1).take 2) ∧
    ((Crypto.create_sequences [(1 : ℚ), 2, 3, 4, 5] 2).1.getD 1 []).length = 2 ∧
    (Crypto.create_sequences [(1 : ℚ), 2, 3, 4, 5] 2).2.getD 1 0 =
      [(1 : ℚ), 2, 3, 4, 5].getD (1 + 2) 0 ∧
    Crypto.create_sequences [(1 : ℚ), 2] 9 = ([], []) := by
  have h := (claim_C1_create_sequences_spec [(1 : ℚ), 2, 3, 4, 5] 2).1
    (by decide)
  have h1 := h.2.2 1 (by decide)
  exact ⟨h.1, h.2.1, h1.1, h1.2.1, h1.2.2,
    (claim_C1_create_sequences_spec [(1 : ℚ), 2] 9).2 (by decide)⟩

namespace Crypto

lemma slice_getD (data : List ℚ) (L i j : ℕ) (hi : i < data.length - L)
    (hj : j < L) :
    ((data.drop i).take L).getD j 0 = data.getD (i + j) 0 := by
  have hlen : ((data.drop i).take L).length = L := slice_length data L i hi
  have hj' : j < ((data.drop i).take L).length := by rw [hlen]; exact hj
  have hij : i + j < data.length := by omega
  rw [List.getD_eq_getElem _ _ hj', List.getD_eq_getElem _ _ hij]
  rw [List.getElem_take, List.getElem_drop]

end Crypto

/-- C10: consecutive windows of `create_sequences` overlap by L−1 elements:
for a series of length N > L+1 (with nonempty windows, L ≥ 1) and every
i < N−L−1, `X[i+1][j] = X[i][j+1]` for all j < L−1, and the target `y[i]`
equals the last element `X[i+1][L−1]` of the following window. -/
theorem claim_C10_window_overlap (data : List ℚ) (L : ℕ) (hL : 1 ≤ L)
    (hN : L + 1 < data.length) :
    ∀ i, i < data.length - L - 1 →
      (∀ j, j < L - 1 →
        ((Crypto.create_sequences data L).1.getD (i + 1) []).getD j 0 =
          ((Crypto.create_sequences data L).1.getD i []).getD (j + 1) 0) ∧
      (Crypto.create_sequences data L).2.getD i 0 =
        ((Crypto.create_sequences data L).1.getD (i + 1) []).getD (L - 1) 0 := by
  intro i hi
  have hi1 : i + 1 < data.length - L := by omega
  have hi0 : i < data.length - L := by omega
  constructor
  · intro j hj
    rw [Crypto.create_sequences_fst_getD data L (i + 1) hi1,
        Crypto.create_sequences_fst_getD data L i hi0,
        Crypto.slice_getD data L (i + 1) j hi1 (by omega),
        Crypto.slice_getD data L i (j + 1) hi0 (by omega)]
    congr 1
    omega
  · rw [Crypto.create_sequences_snd_getD data L i hi0,
        Crypto.create_sequences_fst_getD data L (i + 1) hi1,
        Crypto.slice_getD data L (i + 1) (L - 1) hi1 (by omega)]
    congr 1
    omega

/-- Witness for C10 on the series [1,2,3,4,5] with window length 2, at
window index i = 0 and offset j = 0. -/
theorem claim_C10_witness :
    ((Crypto.create_sequences [(1 : ℚ), 2, 3, 4, 5] 2).1.getD 1 []).getD 0 0 =
      ((Crypto.create_sequences [(1 : ℚ), 2, 3, 4, 5] 2).1.getD 0 []).getD 1 0 ∧
    (Crypto.create_sequences [(1 : ℚ), 2, 3, 4, 5] 2).2.getD 0 0 =
      ((Crypto.create_sequences [(1 : ℚ), 2, 3, 4, 5] 2).1.getD 1 []).getD 1 0 := by
  have h := claim_C10_window_overlap [(1 : ℚ), 2, 3, 4, 5] 2 (by decide)
    (by decide) 0 (by decide)
  exact ⟨h.1 0 (by decide), h.2⟩

namespace Crypto

/-! ## Feature engineering (`create_time_series_features`)

Python (the six column assignments mutate the caller's DataFrame; the
function then returns `df.dropna()`, a separate frame with the NaN rows
removed):
```
df['rolling_mean_7d'] = df['price'].rolling(window=7).mean()
df['rolling_std_7d']  = df['price'].rolling(window=7).std()
df['price_change_1d'] = df['price'].pct_change()
df['price_change_7d'] = df['price'].pct_change(periods=7)
df['price_lag_1']     = df['price'].shift(1)
df['price_lag_7']     = df['price'].shift(7)
return df.dropna()
```
A cell is `none` exactly when pandas produces NaN.  `rolling(window=7)`
uses `min_periods = 7`, so rows 0..5 are NaN; `pct_change(periods=k)` and
`shift(k)` are NaN on rows 0..k-1. -/

def rolling_mean_7d (ps : List ℚ) (i : ℕ) : Option ℚ :=
  if i + 1 < 7 then none
  else some (((ps.drop (i + 1 - 7)).take 7).sum / 7)

/-- Rolling sample standard deviation over the trailing 7 values.  We record
the sample variance (divisor 6 = ddof 1); the source takes its square root,
which changes neither the NaN mask (the variance is nonnegative) nor any
property the claims state. -/
def rolling_std_7d (ps : List ℚ) (i : ℕ) : Option ℚ :=
  if i + 1 < 7 then none
  else
    some ((((ps.drop (i + 1 - 7)).take 7).map
      (fun x => (x - ((ps.drop (i + 1 - 7)).take 7).sum / 7) ^ 2)).sum / 6)

/-- `pct_change(periods=k)` at row i: NaN for i < k.  When the lagged price
is 0 the float computation yields NaN (0/0) or ±inf; we collapse both to
`none` — the theorems below only use this function on strictly positive
price series, where the branch is unreachable. -/
def price_change (ps : List ℚ) (k i : ℕ) : Option ℚ :=
  if i < k then none
  else if ps.getD (i - k) 0 = 0 then none
  else some ((ps.getD i 0 - ps.getD (i - k) 0) / ps.getD (i - k) 0)

/-- `shift(k)` at row i: NaN for i < k, else the price k rows back. -/
def price_lag (ps : List ℚ) (k i : ℕ) : Option ℚ :=
  if i < k then none else some (ps.getD (i - k) 0)

/-- One row of the DataFrame after the six column assignments. -/
structure FeatRow where
  price : ℚ
  rolling_mean_7d : Option ℚ
  rolling_std_7d : Option ℚ
  price_change_1d : Option ℚ
  price_change_7d : Option ℚ
  price_lag_1 : Option ℚ
  price_lag_7 : Option ℚ
  deriving Repr, DecidableEq, Inhabited

def featRow (ps : List ℚ) (i : ℕ) : FeatRow :=
  { price := ps.getD i 0
    rolling_mean_7d := rolling_mean_7d ps i
    rolling_std_7d := rolling_std_7d ps i
    price_change_1d := price_change ps 1 i
    price_change_7d := price_change ps 7 i
    price_lag_1 := price_lag ps 1 i
    price_lag_7 := price_lag ps 7 i }

/-- `dropna` keeps a row iff no cell is NaN; the pre-existing columns
(timestamp, price) of a processed CSV have no NaN, so only the six derived
columns decide it. -/
def hasAllFeatures (r : FeatRow) : Bool :=
  r.rolling_mean_7d.isSome && r.rolling_std_7d.isSome &&
  r.price_change_1d.isSome && r.price_change_7d.isSome &&
  r.price_lag_1.isSome && r.price_lag_7.isSome

/-- The caller-visible state of the DataFrame object after
`create_time_series_features` returns: the six assignments have added the
derived columns in place, no row has been dropped. -/
def create_time_series_features_state (ps : List ℚ) : List FeatRow :=
  (List.range ps.length).map (featRow ps)

/-- The value returned by `create_time_series_features`: `df.dropna()`
applied to the mutated frame. -/
def create_time_series_features (ps : List ℚ) : List FeatRow :=
  (create_time_series_features_state ps).filter hasAllFeatures

lemma hasAllFeatures_featRow (ps : List ℚ) (hpos : ∀ p ∈ ps, 0 < p)
    (i : ℕ) (hi : i < ps.length) :
    hasAllFeatures (featRow ps i) = decide (7 ≤ i) := by
  by_cases h7 : 7 ≤ i
  · have hm1 : i - 1 < ps.length := by omega
    have hm7 : i - 7 < ps.length := by omega
    have hp1 : ps[i - 1]?.getD 0 ≠ 0 := by
      rw [List.getElem?_eq_getElem hm1]
      exact (hpos _ (List.getElem_mem hm1)).ne'
    have hp7 : ps[i - 7]?.getD 0 ≠ 0 := by
      rw [List.getElem?_eq_getElem hm7]
      exact (hpos _ (List.getElem_mem hm7)).ne'
    simp [hasAllFeatures, featRow, rolling_mean_7d, rolling_std_7d,
      price_change, price_lag, h7, hp1, hp7,
      show ¬ i + 1 < 7 by omega, show ¬ i < 1 by omega,
      show ¬ i < 7 by omega]
  · simp [hasAllFeatures, featRow, price_lag, show i < 7 by omega, h7]

lemma create_time_series_features_eq (ps : List ℚ)
    (hpos : ∀ p ∈ ps, 0 < p) :
    create_time_series_features ps =
      ((List.range ps.length).filter (fun i => decide (7 ≤ i))).map
        (featRow ps) := by
  unfold create_time_series_features create_time_series_features_state
  rw [List.filter_map]
  congr 1
  apply List.filter_congr
  intro i hi
  simpa using hasAllFeatures_featRow ps hpos i (List.mem_range.mp hi)

end Crypto

namespace Crypto

lemma map_getD_range (ps : List ℚ) :
    (List.range ps.length).map (fun i => ps.getD i 0) = ps := by
  apply List.ext_getElem
  · simp
  · intro i h1 h2
    simp [List.getD_eq_getElem _ _ h2, List.getElem?_eq_getElem h2]

end Crypto

/-- C4: `create_time_series_features` drops every row with insufficient
history (on a strictly positive price series): the returned frame is exactly
the rows with index ≥ 7, every surviving row has all six derived columns
populated, and a 10-row input leaves exactly 3 rows. -/
theorem claim_C4_insufficient_history_dropped (ps : List ℚ)
    (hpos : ∀ p ∈ ps, 0 < p) :
    Crypto.create_time_series_features ps =
      ((List.range ps.length).filter (fun i => decide (7 ≤ i))).map
        (Crypto.featRow ps) ∧
    (∀ r ∈ Crypto.create_time_series_features ps,
      Crypto.hasAllFeatures r = true) ∧
    (ps.length = 10 → (Crypto.create_time_series_features ps).length = 3) := by
  refine ⟨Crypto.create_time_series_features_eq ps hpos, ?_, ?_⟩
  · intro r hr
    exact (List.mem_filter.mp hr).2
  · intro h10
    rw [Crypto.create_time_series_features_eq ps hpos, List.length_map, h10]
    decide

/-- Witness for C4 on a concrete 10-row, strictly positive price series. -/
theorem claim_C4_witness :
    (Crypto.create_time_series_features
      [(1 : ℚ), 2, 3, 4, 5, 6, 7, 8, 9, 10]).length = 3 :=
  (claim_C4_insufficient_history_dropped
    [(1 : ℚ), 2, 3, 4, 5, 6, 7, 8, 9, 10] (by decide)).2.2 rfl

/-- C9: `create_time_series_features` mutates its input frame in place —
modelled by the explicit post-call state `create_time_series_features_state`:
the caller's frame keeps its price column and row count unchanged, each of
its rows has gained the six derived columns (row i equals `featRow ps i`),
and only the returned value is the NaN-dropped copy of that mutated state. -/
theorem claim_C9_in_place_mutation (ps : List ℚ) :
    (Crypto.create_time_series_features_state ps).map Crypto.FeatRow.price
      = ps ∧
    (Crypto.create_time_series_features_state ps).length = ps.length ∧
    (∀ i, i < ps.length →
      (Crypto.create_time_series_features_state ps).getD i default =
        Crypto.featRow ps i) ∧
    Crypto.create_time_series_features ps =
      (Crypto.create_time_series_features_state ps).filter
        Crypto.hasAllFeatures := by
  refine ⟨?_, ?_, ?_, rfl⟩
  · unfold Crypto.create_time_series_features_state
    rw [List.map_map]
    exact Crypto.map_getD_range ps
  · simp [Crypto.create_time_series_features_state]
  · intro i hi
    have h : i < (Crypto.create_time_series_features_state ps).length := by
      simpa [Crypto.create_time_series_features_state] using hi
    rw [List.getD_eq_getElem _ _ h]
    simp [Crypto.create_time_series_features_state]

/-- Witness for C9 on the concrete two-row series [1, 2] (row 1 checked). -/
theorem claim_C9_witness :
    (Crypto.create_time_series_features_state [(1 : ℚ), 2]).map
      Crypto.FeatRow.price = [(1 : ℚ), 2] ∧
    (Crypto.create_time_series_features_state [(1 : ℚ), 2]).length = 2 ∧
    (Crypto.create_time_series_features_state [(1 : ℚ), 2]).getD 1 default =
      Crypto.featRow [(1 : ℚ), 2] 1 ∧
    Crypto.create_time_series_features [(1 : ℚ), 2] =
      (Crypto.create_time_series_features_state [(1 : ℚ), 2]).filter
        Crypto.hasAllFeatures := by
  have h := claim_C9_in_place_mutation [(1 : ℚ), 2]
  exact ⟨h.1, h.2.1, h.2.2.1 1 (by decide), h.2.2.2⟩

namespace Crypto

/-! ## Scaling (`sklearn.preprocessing.MinMaxScaler`, feature range (0,1))

The notebook calls `scaler.fit_transform(df[['price']])` and later
`scaler.inverse_transform(...)`.  sklearn computes `data_min`/`data_max`
over the fitted column, replaces a zero data range by 1
(`_handle_zeros_in_scale`), and with the default feature range (0,1) maps
`x ↦ (x - data_min) / range` and back `x ↦ x * range + data_min`. -/

structure MinMaxScaler where
  dataMin : ℚ
  dataMax : ℚ
  deriving Repr, DecidableEq

/-- sklearn `_handle_zeros_in_scale`: a zero data range is replaced by 1. -/
def handleZeros (r : ℚ) : ℚ := if r = 0 then 1 else r

def MinMaxScaler.fit (xs : List ℚ) : MinMaxScaler :=
  { dataMin := xs.foldl min (xs.headD 0)
    dataMax := xs.foldl max (xs.headD 0) }

def MinMaxScaler.transform (s : MinMaxScaler) (x : ℚ) : ℚ :=
  (x - s.dataMin) / handleZeros (s.dataMax - s.dataMin)

def MinMaxScaler.inverse_transform (s : MinMaxScaler) (x : ℚ) : ℚ :=
  x * handleZeros (s.dataMax - s.dataMin) + s.dataMin

/-! ## Train/test split (`train_test_split(X, y, test_size=0.2, shuffle=False)`)

sklearn computes `n_test = ceil(0.2 * n)` (read over exact rationals here;
the notebook passes the float literal 0.2) and `n_train = n - n_test`; with
`shuffle=False` the slices are `X[:n_train]`, `X[n_train:]`, `y[:n_train]`,
`y[n_train:]`. -/

def nTest (n : ℕ) : ℕ := (n + 4) / 5

def nTrain (n : ℕ) : ℕ := n - nTest n

def train_test_split (X : List (List ℚ)) (y : List ℚ) :
    (List (List ℚ) × List (List ℚ)) × (List ℚ × List ℚ) :=
  ((X.take (nTrain X.length), X.drop (nTrain X.length)),
   (y.take (nTrain X.length), y.drop (nTrain X.length)))

/-! ## Metrics (`sklearn.metrics`) -/

def mean_squared_error (yt yp : List ℚ) : ℚ :=
  (List.zipWith (fun a b => (a - b) ^ 2) yt yp).sum / yt.length

def mean_absolute_error (yt yp : List ℚ) : ℚ :=
  (List.zipWith (fun a b => |a - b|) yt yp).sum / yt.length

/-- sklearn `r2_score`.  With fewer than two samples the library warns and
returns NaN (`none` here).  Otherwise, with `num = Σ (yt i - yp i)²` and
`den = Σ (yt i - mean yt)²`, the score is `1 - num / den` when both are
nonzero, 0.0 when only `den` is zero, and 1.0 when `num` is zero. -/
def r2_score (yt yp : List ℚ) : Option ℚ :=
  if yt.length < 2 then none
  else if (yt.map (fun a => (a - yt.sum / yt.length) ^ 2)).sum ≠ 0 ∧
      (List.zipWith (fun a b => (a - b) ^ 2) yt yp).sum ≠ 0 then
    some (1 - (List.zipWith (fun a b => (a - b) ^ 2) yt yp).sum /
      (yt.map (fun a => (a - yt.sum / yt.length) ^ 2)).sum)
  else if (List.zipWith (fun a b => (a - b) ^ 2) yt yp).sum ≠ 0 then some 0
  else some 1

/-! ## Data loading -/

/-- Path read by the modeling notebook's `load_crypto_data`. -/
def processedPath (name : String) : String :=
  "../data/processed/" ++ name ++ "_processed.csv"

def fileNotFound (path : String) : String :=
  "FileNotFoundError: " ++ path

/-- The modeling notebook's `load_crypto_data`: `pd.read_csv(data_path)`
with no exception handling, then a timestamp conversion (which touches no
claim; the frame is modelled by its price column).  The filesystem is a
partial map from path to parsed price column; a missing file raises
`FileNotFoundError`, modelled as `Except.error`. -/
def load_crypto_data (fs : String → Option (List ℚ)) (name : String) :
    Except String (List ℚ) :=
  match fs (processedPath name) with
  | none => .error (fileNotFound (processedPath name))
  | some df => .ok df

/-- Path read by the analysis notebook's distinct `load_crypto_data`. -/
def featuresPath (name : String) : String :=
  "data/processed/features/" ++ name ++ "_engineered_features.csv"

/-- The time-series-analysis notebook's `load_crypto_data`: the read is
wrapped in try/except; on `FileNotFoundError` it prints a message and
returns `None`.  Result: (returned value, printed lines). -/
def load_crypto_data_analysis (fs : String → Option (List ℚ))
    (name : String) : Option (List ℚ) × List String :=
  match fs (featuresPath name) with
  | some df => (some df, [])
  | none =>
    (none,
     ["No data found for " ++ name ++ ". Ensure data preprocessing is complete."])

/-! ## `train_and_evaluate_model` and `main` -/

structure RunResult where
  scaler : MinMaxScaler
  scaled : List ℚ
  X : List (List ℚ)
  y : List ℚ
  Xtrain : List (List ℚ)
  Xtest : List (List ℚ)
  ytrain : List ℚ
  ytest : List ℚ
  ypred : List ℚ
  ytestInv : List ℚ
  ypredInv : List ℚ
  mse : ℚ
  mae : ℚ
  r2 : Option ℚ

/-- Deterministic dataflow of `train_and_evaluate_model` after loading, in
source order: feature engineering, scaler fit on the whole price column,
windowing of the scaled series, unshuffled split, prediction, inverse
transforms, metrics.  The trained LSTM is abstracted as the prediction
function `predict` (`model.fit` only produces the weights behind
`model.predict`; nothing downstream inspects them otherwise). -/
def evaluate_pipeline (df0 : List ℚ)
    (predict : List (List ℚ) → List ℚ) : RunResult :=
  let df := create_time_series_features df0
  let prices := df.map FeatRow.price
  let scaler := MinMaxScaler.fit prices
  let scaled := prices.map scaler.transform
  let Xy := create_sequences scaled 30
  let split := train_test_split Xy.1 Xy.2
  let ypred := predict split.1.2
  let ytestInv := split.2.2.map scaler.inverse_transform
  let ypredInv := ypred.map scaler.inverse_transform
  { scaler := scaler
    scaled := scaled
    X := Xy.1
    y := Xy.2
    Xtrain := split.1.1
    Xtest := split.1.2
    ytrain := split.2.1
    ytest := split.2.2
    ypred := ypred
    ytestInv := ytestInv
    ypredInv := ypredInv
    mse := mean_squared_error ytestInv ypredInv
    mae := mean_absolute_error ytestInv ypredInv
    r2 := r2_score ytestInv ypredInv }

def train_and_evaluate_model (fs : String → Option (List ℚ))
    (predict : List (List ℚ) → List ℚ) (name : String) :
    Except String RunResult :=
  (load_crypto_data fs name).map (fun df0 => evaluate_pipeline df0 predict)

/-- `main`'s loop: process each configured asset in order, accumulating
`model_results`; an exception raised while processing an asset aborts the
loop (`Except` short-circuit), and results are only reported after the loop
completes — so an abort loses all previously computed metrics. -/
def runAssets (process : String → Except String RunResult) :
    List String → Except String (List (String × RunResult))
  | [] => .ok []
  | a :: rest =>
    match process a with
    | .error e => .error e
    | .ok r =>
      match runAssets process rest with
      | .error e => .error e
      | .ok ms => .ok ((a, r) :: ms)

/-- The hard-coded asset list in `main`. -/
def cryptocurrencies : List String := ["bitcoin", "ethereum", "binancecoin"]

def main (process : String → Except String RunResult) :
    Except String (List (String × RunResult)) :=
  runAssets process cryptocurrencies

end Crypto

namespace Crypto

lemma inverse_transform_transform (s : MinMaxScaler) (x : ℚ) :
    s.inverse_transform (s.transform x) = x := by
  unfold MinMaxScaler.transform MinMaxScaler.inverse_transform handleZeros
  by_cases h : s.dataMax - s.dataMin = 0
  · simp [h]
  · rw [if_neg h]
    field_simp

end Crypto

/-- C7: the fitted min-max scaler is invertible on its fitted range: over
exact arithmetic, `inverse_transform (transform v) = v` for every v between
the fitted minimum and maximum (the zero-range case is covered by sklearn's
`_handle_zeros_in_scale`). -/
theorem claim_C7_scaler_invertible (xs : List ℚ) (v : ℚ)
    (hlo : (Crypto.MinMaxScaler.fit xs).dataMin ≤ v)
    (hhi : v ≤ (Crypto.MinMaxScaler.fit xs).dataMax) :
    (Crypto.MinMaxScaler.fit xs).inverse_transform
      ((Crypto.MinMaxScaler.fit xs).transform v) = v :=
  Crypto.inverse_transform_transform (Crypto.MinMaxScaler.fit xs) v

/-- Witness for C7: the scaler fitted on [1, 3] reconstructs 2. -/
theorem claim_C7_witness :
    (Crypto.MinMaxScaler.fit [(1 : ℚ), 3]).inverse_transform
      ((Crypto.MinMaxScaler.fit [(1 : ℚ), 3]).transform 2) = 2 :=
  claim_C7_scaler_invertible [(1 : ℚ), 3] 2 (by norm_num [Crypto.MinMaxScaler.fit])
    (by norm_num [Crypto.MinMaxScaler.fit])

/-- C5's counterexample: with the processed file missing, the modeling
notebook's `load_crypto_data` raises (`pd.read_csv` is not wrapped in any
try/except), so the call produces an exception value — not a printed
message with a `None` return as the claim states. -/
theorem claim_C5_counterexample :
    Crypto.load_crypto_data (fun _ => none) "bitcoin" =
      Except.error (Crypto.fileNotFound (Crypto.processedPath "bitcoin")) :=
  rfl

/-- C5 amended: when the processed file for an asset is missing, the
modeling notebook's `load_crypto_data` raises `FileNotFoundError`, which
propagates unguarded through `train_and_evaluate_model` (and hence aborts
`main`); the print-a-message-and-return-`None` behaviour the claim
describes belongs to the *analysis* notebook's distinct `load_crypto_data`,
whose `None` then flows to its caller with no further guard. -/
theorem claim_C5_missing_file (fs : String → Option (List ℚ))
    (name : String) (predict : List (List ℚ) → List ℚ)
    (hmiss : fs (Crypto.processedPath name) = none)
    (hmiss2 : fs (Crypto.featuresPath name) = none) :
    Crypto.load_crypto_data fs name =
      Except.error (Crypto.fileNotFound (Crypto.processedPath name)) ∧
    Crypto.train_and_evaluate_model fs predict name =
      Except.error (Crypto.fileNotFound (Crypto.processedPath name)) ∧
    Crypto.load_crypto_data_analysis fs name =
      (none,
       ["No data found for " ++ name ++
        ". Ensure data preprocessing is complete."]) := by
  refine ⟨?_, ?_, ?_⟩ <;>
    simp [Crypto.load_crypto_data, Crypto.train_and_evaluate_model,
      Crypto.load_crypto_data_analysis, hmiss, hmiss2, Except.map]

/-- Witness for the amended C5 on the empty filesystem and asset name
"bitcoin". -/
theorem claim_C5_witness :
    Crypto.load_crypto_data (fun _ => none) "bitcoin" =
      Except.error (Crypto.fileNotFound (Crypto.processedPath "bitcoin")) ∧
    Crypto.train_and_evaluate_model (fun _ => none) (fun _ => []) "bitcoin" =
      Except.error (Crypto.fileNotFound (Crypto.processedPath "bitcoin")) ∧
    Crypto.load_crypto_data_analysis (fun _ => none) "bitcoin" =
      (none,
       ["No data found for " ++ "bitcoin" ++
        ". Ensure data preprocessing is complete."]) :=
  claim_C5_missing_file (fun _ => none) "bitcoin" (fun _ => []) rfl rfl

namespace Crypto

lemma runAssets_append_error (process : String → Except String RunResult)
    (pre post : List String) (a e : String)
    (hok : ∀ b ∈ pre, ∃ r, process b = .ok r)
    (he : process a = .error e) :
    runAssets process (pre ++ a :: post) = .error e := by
  revert hok
  induction pre with
  | nil =>
    intro _
    simp [runAssets, he]
  | cons b bs ih =>
    intro hok
    obtain ⟨r, hr⟩ := hok b (by simp)
    have ih' := ih (fun c hc => hok c (by simp [hc]))
    simp [runAssets, hr, ih']

end Crypto

/-- C6: the orchestration loop has no per-asset failure isolation: for any
asset list split as `pre ++ a :: post` where every asset of `pre` processes
successfully and processing `a` raises exception e, the whole run evaluates
to that exception — the metrics already computed for `pre` are absent from
the outcome (never reported); and `main` is exactly this loop over the
hard-coded asset list. -/
theorem claim_C6_no_failure_isolation
    (process : String → Except String Crypto.RunResult)
    (pre post : List String) (a e : String)
    (hok : ∀ b ∈ pre, ∃ r, process b = .ok r)
    (he : process a = .error e) :
    Crypto.runAssets process (pre ++ a :: post) = .error e ∧
    Crypto.main process = Crypto.runAssets process Crypto.cryptocurrencies :=
  ⟨Crypto.runAssets_append_error process pre post a e hok he, rfl⟩

/-- Witness for C6: bitcoin processes fine, ethereum raises — the whole run
is the ethereum exception and bitcoin's metrics are gone. -/
theorem claim_C6_witness :
    Crypto.runAssets
      (fun s => if s = "ethereum"
        then Except.error "FileNotFoundError"
        else Except.ok (Crypto.evaluate_pipeline [] (fun _ => [])))
      (["bitcoin"] ++ "ethereum" :: ["binancecoin"]) =
      Except.error "FileNotFoundError" ∧
    Crypto.main
      (fun s => if s = "ethereum"
        then Except.error "FileNotFoundError"
        else Except.ok (Crypto.evaluate_pipeline [] (fun _ => []))) =
      Crypto.runAssets
        (fun s => if s = "ethereum"
          then Except.error "FileNotFoundError"
          else Except.ok (Crypto.evaluate_pipeline [] (fun _ => [])))
        Crypto.cryptocurrencies :=
  claim_C6_no_failure_isolation _ ["bitcoin"] ["binancecoin"] "ethereum"
    "FileNotFoundError"
    (fun b hb => by
      simp only [List.mem_singleton] at hb
      exact ⟨Crypto.evaluate_pipeline [] (fun _ => []), by simp [hb]⟩)
    (by simp)

namespace Crypto

lemma nTrain_le (n : ℕ) : nTrain n ≤ n := Nat.sub_le n (nTest n)

lemma take_getD (X : List (List ℚ)) (k i : ℕ) (hi : i < (X.take k).length) :
    (X.take k).getD i [] = X.getD i [] := by
  have hiX : i < X.length := by
    simp only [List.length_take] at hi
    omega
  rw [List.getD_eq_getElem _ _ hi, List.getD_eq_getElem _ _ hiX,
    List.getElem_take]

lemma drop_getD (X : List (List ℚ)) (k j : ℕ) (hj : j < (X.drop k).length) :
    (X.drop k).getD j [] = X.getD (k + j) [] := by
  have hjX : k + j < X.length := by
    simp only [List.length_drop] at hj
    omega
  rw [List.getD_eq_getElem _ _ hj, List.getD_eq_getElem _ _ hjX,
    List.getElem_drop]

end Crypto

/-- C3: the train/test split preserves chronological order: no shuffling —
the training windows are the contiguous prefix `X[:n_train]` and the test
windows the contiguous suffix `X[n_train:]` (likewise for the targets), the
i-th training window and j-th test window sit at indices i and
`n_train + j` of the original window sequence, so every test window's index
is strictly greater than every training window's index; and the pipeline's
split is exactly `train_test_split` on its windowed data. -/
theorem claim_C3_chronological_split (X : List (List ℚ)) (y : List ℚ)
    (ps : List ℚ) (predict : List (List ℚ) → List ℚ) :
    (Crypto.train_test_split X y).1.1 = X.take (Crypto.nTrain X.length) ∧
    (Crypto.train_test_split X y).1.2 = X.drop (Crypto.nTrain X.length) ∧
    (Crypto.train_test_split X y).2.1 = y.take (Crypto.nTrain X.length) ∧
    (Crypto.train_test_split X y).2.2 = y.drop (Crypto.nTrain X.length) ∧
    (∀ i j, i < (Crypto.train_test_split X y).1.1.length →
      j < (Crypto.train_test_split X y).1.2.length →
      (Crypto.train_test_split X y).1.1.getD i [] = X.getD i [] ∧
      (Crypto.train_test_split X y).1.2.getD j [] =
        X.getD ((Crypto.train_test_split X y).1.1.length + j) [] ∧
      i < (Crypto.train_test_split X y).1.1.length + j) ∧
    ((Crypto.evaluate_pipeline ps predict).Xtrain,
      (Crypto.evaluate_pipeline ps predict).Xtest,
      (Crypto.evaluate_pipeline ps predict).ytrain,
      (Crypto.evaluate_pipeline ps predict).ytest) =
      ((Crypto.train_test_split (Crypto.evaluate_pipeline ps predict).X
          (Crypto.evaluate_pipeline ps predict).y).1.1,
        (Crypto.train_test_split (Crypto.evaluate_pipeline ps predict).X
          (Crypto.evaluate_pipeline ps predict).y).1.2,
        (Crypto.train_test_split (Crypto.evaluate_pipeline ps predict).X
          (Crypto.evaluate_pipeline ps predict).y).2.1,
        (Crypto.train_test_split (Crypto.evaluate_pipeline ps predict).X
          (Crypto.evaluate_pipeline ps predict).y).2.2) := by
  refine ⟨rfl, rfl, rfl, rfl, ?_, rfl⟩
  intro i j hi hj
  have hlen : ((Crypto.train_test_split X y).1.1).length =
      Crypto.nTrain X.length := by
    simp only [Crypto.train_test_split, List.length_take]
    exact Nat.min_eq_left (Crypto.nTrain_le X.length)
  refine ⟨Crypto.take_getD X _ i hi, ?_, by omega⟩
  rw [hlen]
  exact Crypto.drop_getD X _ j hj

/-- Witness for C3: five windows split 4/1 (train window 3, test window 0
checked), and the pipeline link at the empty series. -/
theorem claim_C3_witness :
    (Crypto.train_test_split [[(1 : ℚ)], [2], [3], [4], [5]]
        [(1 : ℚ), 2, 3, 4, 5]).1.1 =
      [[(1 : ℚ)], [2], [3], [4], [5]].take (Crypto.nTrain 5) ∧
    (Crypto.train_test_split [[(1 : ℚ)], [2], [3], [4], [5]]
        [(1 : ℚ), 2, 3, 4, 5]).1.2 =
      [[(1 : ℚ)], [2], [3], [4], [5]].drop (Crypto.nTrain 5) ∧
    (Crypto.train_test_split [[(1 : ℚ)], [2], [3], [4], [5]]
        [(1 : ℚ), 2, 3, 4, 5]).1.1.getD 3 [] =
      [[(1 : ℚ)], [2], [3], [4], [5]].getD 3 [] ∧
    (Crypto.train_test_split [[(1 : ℚ)], [2], [3], [4], [5]]
        [(1 : ℚ), 2, 3, 4, 5]).1.2.getD 0 [] =
      [[(1 : ℚ)], [2], [3], [4], [5]].getD
        ((Crypto.train_test_split [[(1 : ℚ)], [2], [3], [4], [5]]
          [(1 : ℚ), 2, 3, 4, 5]).1.1.length + 0) [] ∧
    (3 : ℕ) < (Crypto.train_test_split [[(1 : ℚ)], [2], [3], [4], [5]]
        [(1 : ℚ), 2, 3, 4, 5]).1.1.length + 0 := by
  have h := claim_C3_chronological_split [[(1 : ℚ)], [2], [3], [4], [5]]
    [(1 : ℚ), 2, 3, 4, 5] [] (fun _ => [])
  have h5 := h.2.2.2.2.1 3 0 (by decide) (by decide)
  exact ⟨h.1, h.2.1, h5.1, h5.2.1, h5.2.2⟩

namespace Crypto

/-- The price column the pipeline scales: `df[['price']]` after feature
engineering. -/
def price_column (ps : List ℚ) : List ℚ :=
  (create_time_series_features ps).map FeatRow.price

lemma create_sequences_map_snd (f : ℚ → ℚ) (l : List ℚ) (L : ℕ) :
    (create_sequences (l.map f) L).2 = (create_sequences l L).2.map f := by
  unfold create_sequences
  simp only [List.length_map, List.map_map]
  apply List.map_congr_left
  intro i hi
  have hi' : i + L < l.length := by
    have := List.mem_range.mp hi
    omega
  simp only [Function.comp]
  rw [List.getD_eq_getElem _ _ (by simpa using hi'),
    List.getD_eq_getElem _ _ hi', List.getElem_map]

lemma map_inverse_transform_drop (s : MinMaxScaler) (l : List ℚ) (k L : ℕ) :
    (((create_sequences (l.map s.transform) L).2.drop k).map
        s.inverse_transform) =
      (create_sequences l L).2.drop k := by
  rw [create_sequences_map_snd, ← List.map_drop, List.map_map]
  calc ((create_sequences l L).2.drop k).map
        (s.inverse_transform ∘ s.transform)
      = ((create_sequences l L).2.drop k).map id := by
        apply List.map_congr_left
        intro x _
        exact inverse_transform_transform s x
    _ = (create_sequences l L).2.drop k := List.map_id _

end Crypto

/-- C2: in `train_and_evaluate_model` the min-max scaler is fitted on the
entire (feature-engineered) price column — including what later becomes
test data — before the train/test split is applied: the whole column is
transformed by that one scaler, windowing and the split happen on the
already-scaled data, and the same scaler inverse-transforms both the
predictions and the true test targets, so `ytestInv` is exactly the
original-unit target suffix and the reported MSE/MAE/R² are computed on
original price units. -/
theorem claim_C2_scaler_fit_before_split (ps : List ℚ)
    (predict : List (List ℚ) → List ℚ) :
    (Crypto.evaluate_pipeline ps predict).scaler =
      Crypto.MinMaxScaler.fit (Crypto.price_column ps) ∧
    (Crypto.evaluate_pipeline ps predict).scaled =
      (Crypto.price_column ps).map
        (Crypto.MinMaxScaler.fit (Crypto.price_column ps)).transform ∧
    ((Crypto.evaluate_pipeline ps predict).X,
      (Crypto.evaluate_pipeline ps predict).y) =
      Crypto.create_sequences (Crypto.evaluate_pipeline ps predict).scaled
        30 ∧
    (Crypto.evaluate_pipeline ps predict).Xtrain ++
        (Crypto.evaluate_pipeline ps predict).Xtest =
      (Crypto.evaluate_pipeline ps predict).X ∧
    (Crypto.evaluate_pipeline ps predict).ytrain ++
        (Crypto.evaluate_pipeline ps predict).ytest =
      (Crypto.evaluate_pipeline ps predict).y ∧
    (Crypto.evaluate_pipeline ps predict).ytestInv =
      (Crypto.create_sequences (Crypto.price_column ps) 30).2.drop
        (Crypto.nTrain ((Crypto.price_column ps).length - 30)) ∧
    (Crypto.evaluate_pipeline ps predict).ypredInv =
      (Crypto.evaluate_pipeline ps predict).ypred.map
        (Crypto.evaluate_pipeline ps predict).scaler.inverse_transform ∧
    (Crypto.evaluate_pipeline ps predict).mse =
      Crypto.mean_squared_error (Crypto.evaluate_pipeline ps predict).ytestInv
        (Crypto.evaluate_pipeline ps predict).ypredInv ∧
    (Crypto.evaluate_pipeline ps predict).mae =
      Crypto.mean_absolute_error
        (Crypto.evaluate_pipeline ps predict).ytestInv
        (Crypto.evaluate_pipeline ps predict).ypredInv ∧
    (Crypto.evaluate_pipeline ps predict).r2 =
      Crypto.r2_score (Crypto.evaluate_pipeline ps predict).ytestInv
        (Crypto.evaluate_pipeline ps predict).ypredInv := by
  refine ⟨rfl, rfl, rfl, List.take_append_drop _ _, List.take_append_drop _ _,
    ?_, rfl, rfl, rfl, rfl⟩
  show (((Crypto.create_sequences ((Crypto.price_column ps).map
      (Crypto.MinMaxScaler.fit (Crypto.price_column ps)).transform) 30).2.drop
        (Crypto.nTrain ((Crypto.create_sequences
          ((Crypto.price_column ps).map
            (Crypto.MinMaxScaler.fit (Crypto.price_column ps)).transform)
          30).1.length))).map
      (Crypto.MinMaxScaler.fit (Crypto.price_column ps)).inverse_transform) =
    (Crypto.create_sequences (Crypto.price_column ps) 30).2.drop
      (Crypto.nTrain ((Crypto.price_column ps).length - 30))
  rw [Crypto.create_sequences_fst_length, List.length_map,
    Crypto.map_inverse_transform_drop]

namespace Crypto

lemma zipWith_eq_map_zip (f : ℚ → ℚ → ℚ) (as bs : List ℚ) :
    List.zipWith f as bs = (as.zip bs).map (fun p => f p.1 p.2) := by
  induction as generalizing bs with
  | nil => simp
  | cons a as ih =>
    cases bs with
    | nil => simp
    | cons b bs => simp [ih]

end Crypto

/-- C8 (amended): MSE, MAE and R² are order-invariant functions of the
(truth, prediction) pairs — applying the same permutation to both arrays
leaves all three unchanged; with at least two samples, R² equals 1.0
whenever predictions equal truth; with fewer than two samples sklearn
returns NaN (so a one-sample perfect prediction is NaN, not 1.0); and for
a constant (zero-variance) truth array with at least two samples and
imperfect predictions, sklearn returns the defined value 0.0 — not NaN and
not an error. -/
theorem claim_C8_metrics_invariance (yt yp yt' yp' : List ℚ) (c : ℚ)
    (hl : yt.length = yp.length) (hl' : yt'.length = yp'.length)
    (hperm : (yt.zip yp).Perm (yt'.zip yp')) :
    Crypto.mean_squared_error yt yp = Crypto.mean_squared_error yt' yp' ∧
    Crypto.mean_absolute_error yt yp = Crypto.mean_absolute_error yt' yp' ∧
    Crypto.r2_score yt yp = Crypto.r2_score yt' yp' ∧
    (2 ≤ yt.length → yt = yp → Crypto.r2_score yt yp = some 1) ∧
    (yt.length < 2 → Crypto.r2_score yt yp = none) ∧
    (2 ≤ yt.length → (∀ a ∈ yt, a = c) →
      (List.zipWith (fun a b => (a - b) ^ 2) yt yp).sum ≠ 0 →
      Crypto.r2_score yt yp = some 0) := by
  have hfst : (yt.zip yp).map Prod.fst = yt :=
    List.map_fst_zip yt yp (le_of_eq hl)
  have hfst' : (yt'.zip yp').map Prod.fst = yt' :=
    List.map_fst_zip yt' yp' (le_of_eq hl')
  have hytperm : yt.Perm yt' := by
    have h := hperm.map Prod.fst
    rwa [hfst, hfst'] at h
  have hn : yt.length = yt'.length := hytperm.length_eq
  have hsum : yt.sum = yt'.sum := hytperm.sum_eq
  have hnum : (List.zipWith (fun a b => (a - b) ^ 2) yt yp).sum =
      (List.zipWith (fun a b => (a - b) ^ 2) yt' yp').sum := by
    rw [Crypto.zipWith_eq_map_zip, Crypto.zipWith_eq_map_zip]
    exact (hperm.map _).sum_eq
  have habs : (List.zipWith (fun a b => |a - b|) yt yp).sum =
      (List.zipWith (fun a b => |a - b|) yt' yp').sum := by
    rw [Crypto.zipWith_eq_map_zip, Crypto.zipWith_eq_map_zip]
    exact (hperm.map _).sum_eq
  have hden : (yt.map (fun a => (a - yt.sum / yt.length) ^ 2)).sum =
      (yt'.map (fun a => (a - yt'.sum / yt'.length) ^ 2)).sum := by
    rw [hsum, hn]
    exact (hytperm.map _).sum_eq
  refine ⟨?_, ?_, ?_, ?_, ?_, ?_⟩
  · unfold Crypto.mean_squared_error
    rw [hnum, hn]
  · unfold Crypto.mean_absolute_error
    rw [habs, hn]
  · unfold Crypto.r2_score
    rw [hnum, hden, hn]
  · intro h2 hq
    subst hq
    unfold Crypto.r2_score
    rw [if_neg (by omega)]
    have hnum0 : (List.zipWith (fun a b => (a - b) ^ 2) yt yt).sum = 0 := by
      rw [List.zipWith_same]
      apply List.sum_eq_zero
      intro x hx
      obtain ⟨a, _, rfl⟩ := List.mem_map.mp hx
      ring
    rw [hnum0]
    simp
  · intro h2
    unfold Crypto.r2_score
    rw [if_pos h2]
  · intro h2 hconst hnz
    have hQn : (yt.length : ℚ) ≠ 0 := by
      have : yt.length ≠ 0 := by omega
      exact_mod_cast this
    have hm : yt.sum / yt.length = c := by
      rw [List.sum_eq_card_nsmul yt c hconst, nsmul_eq_mul]
      exact mul_div_cancel_left₀ c hQn
    have hden0 : (yt.map (fun a => (a - yt.sum / yt.length) ^ 2)).sum = 0 := by
      apply List.sum_eq_zero
      intro x hx
      obtain ⟨a, ha, rfl⟩ := List.mem_map.mp hx
      rw [hm, hconst a ha]
      ring
    unfold Crypto.r2_score
    rw [if_neg (by omega), hden0]
    simp [hnz]

/-- Witness for C8's permutation invariance at the concrete pair lists
([1,2],[3,4]) against their common transposition ([2,1],[4,3]). -/
theorem claim_C8_witness :
    Crypto.mean_squared_error [(1 : ℚ), 2] [3, 4] =
      Crypto.mean_squared_error [(2 : ℚ), 1] [4, 3] ∧
    Crypto.mean_absolute_error [(1 : ℚ), 2] [3, 4] =
      Crypto.mean_absolute_error [(2 : ℚ), 1] [4, 3] ∧
    Crypto.r2_score [(1 : ℚ), 2] [3, 4] =
      Crypto.r2_score [(2 : ℚ), 1] [4, 3] := by
  have h := claim_C8_metrics_invariance [(1 : ℚ), 2] [3, 4] [(2 : ℚ), 1]
    [4, 3] 0 rfl rfl (by decide)
  exact ⟨h.1, h.2.1, h.2.2.1⟩

/-- C8's counterexample: sklearn's `r2_score` on the zero-variance truth
array [1,1] with imperfect predictions [1,2] is the defined value 0.0 (not
NaN, no exception); and on the one-sample perfect prediction ([5],[5]) it
is NaN rather than the claimed 1.0. -/
theorem claim_C8_counterexample :
    Crypto.r2_score [(1 : ℚ), 1] [1, 2] = some 0 ∧
    Crypto.r2_score [(5 : ℚ)] [5] = none := by
  constructor
  · norm_num [Crypto.r2_score]
  · norm_num [Crypto.r2_score]
